import Mathlib

/-!
Shallow embedding of the `caprica/nodejs-typescript-contentful-example`
repository: a CLI that generates tagged test content in a headless CMS
(`setup`) and removes it again (`teardown`).

The vendor management client is modelled by a `Server` oracle (responses to
remote calls) together with a request trace: every remote call made through
the client appends a `Request` to the trace.  `async`/`await` sequencing in
the TypeScript source becomes monadic sequencing in the `CMS` monad; a
`Promise.all` over a list of per-item calls becomes `promiseAll`, which
issues the calls in list order (the order the JavaScript `map` starts them)
and fails if any one of them fails.  A rejected promise becomes
`Except.error`; later requests of a failed `Promise.all` group are not
recorded, which is irrelevant for the claims below (they concern only
successful traces or the absence of a later request).

External data generators (faker, lodash case conversion) are modelled by a
`Gen` environment of abstract functions, indexed by loop iteration where the
generator is stateful.
-/

namespace Cfdata

/-- Link to a tag, as placed in `metadata.tags` (the TS literal
`{ sys: { type: 'Link', linkType: 'Tag', id: tag } }`). -/
structure TagLink where
  type : String
  linkType : String
  id : String
deriving DecidableEq, Repr

/-- Metadata of an entry or asset: its list of tag links. -/
structure Metadata where
  tags : List TagLink
deriving DecidableEq, Repr

/-- System properties of a remote item: id, version and type
discriminator (the string "Entry" or "Asset"). -/
structure Sys where
  id : String
  version : Nat
  type : String
deriving DecidableEq, Repr

/-- The value of one localized entry field: a plain (generated) string, or a
link literal `{ sys: { type: 'Link', linkType, id } }`. -/
inductive FieldValue where
  | str : String → FieldValue
  | link : (linkType : String) → (id : String) → FieldValue
deriving DecidableEq, Repr

/-- Localized value mapping: locale → field value. -/
abbrev LocalizedValue := List (String × FieldValue)

/-- Entry fields: field name → locale → value. -/
abbrev Fields := List (String × LocalizedValue)

/-- Look up a field value for a given field name and locale. -/
def getField (fields : Fields) (name locale : String) : Option FieldValue :=
  (fields.lookup name).bind (fun lv => lv.lookup locale)

/-- Remote entry record (TS `EntryProps`). -/
structure EntryProps where
  sys : Sys
  metadata : Metadata
  fields : Fields
deriving DecidableEq, Repr

/-- Payload of an entry creation call (TS `CreateEntryProps`): fields plus
metadata, no system properties yet. -/
structure CreateEntryProps where
  fields : Fields
  metadata : Metadata
deriving DecidableEq, Repr

/-- Source of an asset file: a read stream over a local file (named by its
path), or a remote upload URL. -/
inductive FileSource where
  | stream : String → FileSource
  | upload : String → FileSource
deriving DecidableEq, Repr

/-- The per-locale `file` field of an asset. -/
structure AssetFileField where
  source : FileSource
  contentType : String
  fileName : String
deriving DecidableEq, Repr

/-- Asset fields: localized title, description and file reference. -/
structure AssetFields where
  title : List (String × String)
  description : List (String × String)
  file : List (String × AssetFileField)
deriving DecidableEq, Repr

/-- Remote asset record (TS `AssetProps`).  `metadata` is optional: a freshly
created asset has none until `tagAsset` sets it. -/
structure AssetProps where
  sys : Sys
  metadata : Option Metadata
  fields : AssetFields
deriving DecidableEq, Repr

/-- Payload of an asset creation call.  The creation payload built by the
source carries no `metadata` key, so `metadata` is `none` there; the API
field is kept so that "the creation call carries no tag" is a statement
about the payload, not about the type. -/
structure CreateAssetProps where
  fields : AssetFields
  metadata : Option Metadata
deriving DecidableEq, Repr

/-- Metadata describing an asset to create (the repository's `AssetMeta`
model type, as used by the asset creation functions). -/
structure AssetMeta where
  title : String
  description : String
  contentType : String
  fileName : String
deriving DecidableEq, Repr

/-- Link item of a bulk action payload.  Publish links carry a version,
unpublish links do not. -/
structure ItemLink where
  type : String
  id : String
  version : Option Nat
  linkType : String
deriving DecidableEq, Repr

/-- Bulk action payload: `entities: { sys: { type: 'Array' }, items }`. -/
structure BulkPayload where
  arrayType : String
  items : List ItemLink
deriving DecidableEq, Repr

/-- One remote call against the vendor management API.  Each constructor
records the request payload the source builds for that call. -/
inductive Request where
  | entryGetMany (selectQuery tagQueryKey tag : String)
  | assetGetMany (selectQuery tagQueryKey tag : String)
  | entryDelete (entryId : String)
  | assetDelete (assetId : String)
  | entryCreate (contentTypeId : String) (entry : CreateEntryProps)
  | assetCreateFromFiles (props : CreateAssetProps)
  | assetCreate (props : CreateAssetProps)
  | assetUpdate (assetId : String) (asset : AssetProps)
  | assetProcess (asset : AssetProps)
  | bulkPublish (spaceId environmentId : String) (payload : BulkPayload)
  | bulkUnpublish (spaceId environmentId : String) (payload : BulkPayload)
deriving DecidableEq, Repr

/-- Whether a request is a bulk-action request (publish or unpublish). -/
def Request.isBulkAction : Request → Bool
  | .bulkPublish _ _ _ => true
  | .bulkUnpublish _ _ _ => true
  | _ => false

/-- Whether a request is the bulk publish request. -/
def Request.isBulkPublish : Request → Bool
  | .bulkPublish _ _ _ => true
  | _ => false

/-- Whether a request deletes an entry or an asset. -/
def Request.isDelete : Request → Bool
  | .entryDelete _ => true
  | .assetDelete _ => true
  | _ => false

/-- Whether a request creates an entry of the given content type. -/
def Request.isCreateOfType (contentTypeId : String) : Request → Bool
  | .entryCreate c _ => c == contentTypeId
  | _ => false

/-- Whether a request creates an asset (from files or from an upload URL). -/
def Request.isAssetCreation : Request → Bool
  | .assetCreate _ => true
  | .assetCreateFromFiles _ => true
  | _ => false

/-- Error raised by a rejected remote call.  In the fragment the claims
exercise, only asset processing can reject. -/
inductive Err where
  | processingFailed (assetId : String)
deriving DecidableEq, Repr

/-- Oracle for the remote side: configuration read from the environment,
ids and versions handed out for created items, which assets process
successfully, and the results of tag queries. -/
structure Server where
  spaceId : String
  newId : Nat → String
  newVersion : Nat → Nat
  processOk : String → Bool
  taggedEntries : String → List String
  taggedAssets : String → List String

/-- Mutable state threaded through a run: the fresh-id counter and the trace
of remote requests issued so far. -/
structure CMSState where
  fresh : Nat
  trace : List Request
deriving DecidableEq, Repr

/-- The effect monad of the embedding: read the server oracle, thread the
state, fail like a rejected promise. -/
def CMS (α : Type) : Type := Server → CMSState → Except Err α × CMSState

/-- Return a pure value. -/
def CMS.pure {α : Type} (a : α) : CMS α := fun _ s => (Except.ok a, s)

/-- Sequence two computations; a rejection short-circuits. -/
def CMS.bind {α β : Type} (m : CMS α) (f : α → CMS β) : CMS β := fun srv s =>
  match m srv s with
  | (Except.ok a, s1) => f a srv s1
  | (Except.error e, s1) => (Except.error e, s1)

instance instMonadCMS : Monad CMS where
  pure := CMS.pure
  bind := CMS.bind

/-- Record one remote request in the trace. -/
def emit (r : Request) : CMS Unit := fun _ s =>
  (Except.ok (), { s with trace := s.trace ++ [r] })

/-- Read the server oracle. -/
def server : CMS Server := fun srv s => (Except.ok srv, s)

/-- Fail, modelling a rejected promise. -/
def fail {α : Type} (e : Err) : CMS α := fun _ s => (Except.error e, s)

/-- Obtain the system properties the server assigns to a newly created item
of the given type, advancing the fresh counter. -/
def freshSys (ty : String) : CMS Sys := fun srv s =>
  (Except.ok { id := srv.newId s.fresh, version := srv.newVersion s.fresh, type := ty },
   { s with fresh := s.fresh + 1 })

/-- Model of `Promise.all(xs.map(f))`: the calls are started in list order
and the group fails if any one fails. -/
def promiseAll {α β : Type} (f : α → CMS β) : List α → CMS (List β)
  | [] => CMS.pure []
  | x :: xs => CMS.bind (f x) (fun y => CMS.bind (promiseAll f xs) (fun ys => CMS.pure (y :: ys)))

/-- Run a computation against a server, from counter 0 and an empty trace. -/
def runCMS {α : Type} (m : CMS α) (srv : Server) : Except Err α × CMSState :=
  m srv { fresh := 0, trace := [] }

/-- The trace of requests a computation issues when run from scratch. -/
def traceOf {α : Type} (m : CMS α) (srv : Server) : List Request :=
  (runCMS m srv).2.trace

/-- The outcome of a computation run from scratch. -/
def resultOf {α : Type} (m : CMS α) (srv : Server) : Except Err α :=
  (runCMS m srv).1

/-!
The CMS access facade, translated from the repository's contentful access
module.  Logging calls touch no remote state and are dropped.
-/

/-- Find all entries with the given tag: one `getMany` query selecting
`sys.id` filtered by `metadata.tags.sys.id[all]`, mapped to the ids. -/
def findTaggedEntries (tag : String) : CMS (List String) := do
  emit (Request.entryGetMany "sys.id" "metadata.tags.sys.id[all]" tag)
  let srv ← server
  pure (srv.taggedEntries tag)

/-- Find all assets with the given tag, symmetric to `findTaggedEntries`. -/
def findTaggedAssets (tag : String) : CMS (List String) := do
  emit (Request.assetGetMany "sys.id" "metadata.tags.sys.id[all]" tag)
  let srv ← server
  pure (srv.taggedAssets tag)

/-- Delete zero or more entries by id: `Promise.all` over one delete call
per id. -/
def deleteEntries (ids : List String) : CMS (List Unit) :=
  promiseAll (fun id => emit (Request.entryDelete id)) ids

/-- Delete zero or more assets by id: `Promise.all` over one delete call
per id. -/
def deleteAssets (ids : List String) : CMS (List Unit) :=
  promiseAll (fun id => emit (Request.assetDelete id)) ids

/-- Create a new entry: the creation payload spreads the given field values
and attaches the tag as metadata at creation time. -/
def createEntry (contentTypeId : String) (value : Fields) (tag : String) : CMS EntryProps := do
  let entry : CreateEntryProps :=
    { fields := value,
      metadata := { tags := [{ type := "Link", linkType := "Tag", id := tag }] } }
  emit (Request.entryCreate contentTypeId entry)
  let sys ← freshSys "Entry"
  pure { sys := sys, metadata := entry.metadata, fields := entry.fields }

/-- Tag an asset: overwrite `asset.metadata` with a single tag link and send
the whole asset in an update call; the server's response is the updated
asset with its version advanced. -/
def tagAsset (asset : AssetProps) (tag : String) : CMS AssetProps := do
  let newMetadata : Metadata := { tags := [{ type := "Link", linkType := "Tag", id := tag }] }
  let tagged : AssetProps := { asset with metadata := some newMetadata }
  emit (Request.assetUpdate tagged.sys.id tagged)
  pure { tagged with sys := { tagged.sys with version := tagged.sys.version + 1 } }

/-- Create a new asset from a local file: the creation payload carries no
tag (asset creation cannot incorporate the tag), and the tag is added by a
subsequent `tagAsset` update. -/
def createAssetFromFile (meta : AssetMeta) (file : String) (locale tag : String) :
    CMS AssetProps := do
  let assetProps : CreateAssetProps :=
    { fields :=
        { title := [(locale, meta.title)],
          description := [(locale, meta.description)],
          file := [(locale,
            { source := FileSource.stream file,
              contentType := meta.contentType,
              fileName := meta.fileName })] },
      metadata := none }
  emit (Request.assetCreateFromFiles assetProps)
  let sys ← freshSys "Asset"
  let asset : AssetProps := { sys := sys, metadata := none, fields := assetProps.fields }
  tagAsset asset tag

/-- Create a new asset from a Picsum URL: as for `createAssetFromFile`, the
creation payload carries no tag and the tag is added by a subsequent
`tagAsset` update. -/
def createAssetFromPicsum (meta : AssetMeta) (width height : Nat) (locale tag : String) :
    CMS AssetProps := do
  let assetProps : CreateAssetProps :=
    { fields :=
        { title := [(locale, meta.title)],
          description := [(locale, meta.description)],
          file := [(locale,
            { source := FileSource.upload
                ("https://picsum.photos/" ++ toString width ++ "/" ++ toString height),
              contentType := meta.contentType,
              fileName := meta.fileName })] },
      metadata := none }
  emit (Request.assetCreate assetProps)
  let sys ← freshSys "Asset"
  let asset : AssetProps := { sys := sys, metadata := none, fields := assetProps.fields }
  tagAsset asset tag

/-- Request processing of one asset; the call rejects when the server fails
that asset, and otherwise responds with the processed asset (version
advanced by processing). -/
def processForAllLocales (asset : AssetProps) : CMS AssetProps := do
  emit (Request.assetProcess asset)
  let srv ← server
  if srv.processOk asset.sys.id then
    pure { asset with sys := { asset.sys with version := asset.sys.version + 1 } }
  else
    fail (Err.processingFailed asset.sys.id)

/-- Wait for assets to be processed: start one processing call per asset and
join them all (`Promise.all`); a single failure fails the batch. -/
def processAssets (assets : List AssetProps) : CMS (List AssetProps) :=
  promiseAll processForAllLocales assets

/-- Heterogeneous item (TS `ItemArray` element): an asset or an entry. -/
inductive Item where
  | asset : AssetProps → Item
  | entry : EntryProps → Item
deriving DecidableEq, Repr

/-- System properties of a heterogeneous item. -/
def Item.sys : Item → Sys
  | .asset a => a.sys
  | .entry e => e.sys

/-- Bulk publish payload built by `publishItems`: one link per item, in item
order, carrying the item's id, version and type as `linkType`. -/
def publishPayload (items : List Item) : BulkPayload :=
  { arrayType := "Array",
    items := items.map (fun item =>
      { type := "Link",
        id := item.sys.id,
        version := some item.sys.version,
        linkType := item.sys.type }) }

/-- Publish a collection of items in bulk: nothing is sent for an empty
list; otherwise a single bulk publish request is submitted.  (The TS
function returns the bulk action object, unused by its caller; the model
returns unit.) -/
def publishItems (items : List Item) : CMS Unit := do
  if items.length = 0 then
    pure ()
  else do
    let srv ← server
    emit (Request.bulkPublish srv.spaceId "master" (publishPayload items))

/-- Bulk unpublish payload built by `unpublishItems`: one link per id, in id
order, without a version. -/
def unpublishPayload (items : List String) (type : String) : BulkPayload :=
  { arrayType := "Array",
    items := items.map (fun id =>
      { type := "Link", id := id, version := none, linkType := type }) }

/-- Unpublish a collection of ids in bulk: nothing is sent for an empty
list; otherwise a single bulk unpublish request is submitted. -/
def unpublishItems (items : List String) (type : String) : CMS Unit := do
  if items.length = 0 then
    pure ()
  else do
    let srv ← server
    emit (Request.bulkUnpublish srv.spaceId "master" (unpublishPayload items type))

/-- Unpublish a collection of entries in bulk. -/
def unpublishEntries (ids : List String) : CMS Unit :=
  unpublishItems ids "Entry"

/-- Unpublish a collection of assets in bulk. -/
def unpublishAssets (ids : List String) : CMS Unit :=
  unpublishItems ids "Asset"

/-!
The setup workflow (setup-command module).
-/

/-- Environment of external data generators: faker field generators (indexed
by loop iteration, since faker is stateful and yields a fresh value per
call) and the lodash case-conversion functions. -/
structure Gen where
  companyName : Nat → String
  streetAddress : Nat → String
  city : Nat → String
  county : Nat → String
  zipCode : Nat → String
  kebabCase : String → String
  snakeCase : String → String

/-- Holder for both created assets and entries (the `Items` interface). -/
structure Items where
  assets : List AssetProps
  entries : List EntryProps
deriving DecidableEq, Repr

/-- Create one content triple for iteration `i`: an Image asset from Picsum,
an Address entry, and an Article entry whose `address` and `mainImage`
fields link to the two by id. -/
def createTestEntry (gen : Gen) (i : Nat) (locale tag : String) : CMS Items := do
  let name := gen.companyName i
  let imageProps : AssetMeta :=
    { title := name ++ " featured image",
      description := "Main image for " ++ name ++ ".",
      contentType := "image/jpeg",
      fileName := gen.snakeCase name ++ ".jpg" }
  let imageAsset ← createAssetFromPicsum imageProps 400 225 locale tag
  let addressProps : Fields :=
    [("houseNumberAndStreet", [(locale, FieldValue.str (gen.streetAddress i))]),
     ("town", [(locale, FieldValue.str (gen.city i))]),
     ("county", [(locale, FieldValue.str (gen.county i))]),
     ("postcode", [(locale, FieldValue.str (gen.zipCode i))])]
  let addressEntry ← createEntry "address" addressProps tag
  let articleProps : Fields :=
    [("name", [(locale, FieldValue.str name)]),
     ("address", [(locale, FieldValue.link "Entry" addressEntry.sys.id)]),
     ("mainImage", [(locale, FieldValue.link "Asset" imageAsset.sys.id)]),
     ("slug", [(locale, FieldValue.str (gen.kebabCase name))])]
  let articleEntry ← createEntry "article" articleProps tag
  pure { assets := [imageAsset], entries := [addressEntry, articleEntry] }

/-- The `for (var i = 0; i < 10; i++)` collection loop of `setupCommand`,
with the iteration index `i` and remaining count `n` explicit: each
iteration appends the created assets and entries to the accumulator. -/
def setupLoop (gen : Gen) (locale tag : String) : Nat → Nat → Items → CMS Items
  | _, 0, acc => CMS.pure acc
  | i, n + 1, acc =>
    CMS.bind (createTestEntry gen i locale tag) (fun createdItems =>
      setupLoop gen locale tag (i + 1) n
        { assets := acc.assets ++ createdItems.assets,
          entries := acc.entries ++ createdItems.entries })

/-- Create new test data: ten sequential content triples, then wait for all
assets to process, then publish entries plus processed assets in one go. -/
def setupCommand (gen : Gen) (tag locale : String) : CMS Unit := do
  let allCreatedItems ← setupLoop gen locale tag 0 10 { assets := [], entries := [] }
  let allProcessedAssets ← processAssets allCreatedItems.assets
  let toPublish :=
    allCreatedItems.entries.map Item.entry ++ allProcessedAssets.map Item.asset
  publishItems toPublish

/-!
The teardown workflow (teardown-command module).
-/

/-- Teardown previously created test data: find tagged entry and asset ids,
unpublish entries, unpublish assets, delete entries, delete assets, each
step awaited in that order. -/
def teardownCommand (tag : String) : CMS Unit := do
  let generatedEntries ← findTaggedEntries tag
  let generatedAssets ← findTaggedAssets tag
  unpublishEntries generatedEntries
  unpublishAssets generatedAssets
  let _ ← deleteEntries generatedEntries
  let _ ← deleteAssets generatedAssets
  pure ()

/-!
The CLI dispatcher (commander program).  The commander library is an
external collaborator; its documented option semantics are modelled here:
an option whose flags string contains a value placeholder (`<x>` or `[x]`)
consumes the following token as its string value, while an option without
one is a boolean flag whose presence yields the value `true`; an option
not supplied on the command line takes its declared default; a token
matching no declared flag is an excess operand and sets no option.
-/

/-- Value of a parsed command-line option: a string, or a boolean for a
valueless flag. -/
inductive OptValue where
  | str : String → OptValue
  | boolean : Bool → OptValue
deriving DecidableEq, Repr

/-- A declared option: its flags string (e.g. "-t, --tag") and default. -/
structure CmdOption where
  flags : String
  defaultValue : OptValue
deriving DecidableEq, Repr

/-- Split a character list at commas (comma has code 44). -/
def splitAtCommas : List Char → List (List Char)
  | [] => [[]]
  | c :: cs =>
    let rest := splitAtCommas cs
    if c == Char.ofNat 44 then [] :: rest
    else
      match rest with
      | r :: rs => (c :: r) :: rs
      | [] => [[c]]

/-- The flag tokens of an option's flags string: "-t, --tag" yields
["-t", "--tag"] (split at commas, leading spaces dropped; space has code
32). -/
def optionFlagNames (flags : String) : List String :=
  (splitAtCommas flags.toList).map
    (fun cs => String.mk (cs.dropWhile (fun c => c == Char.ofNat 32)))

/-- Whether an option consumes a value: true exactly when its flags string
declares a value placeholder `<...>` or `[...]` (codes 60 and 91). -/
def optionTakesValue (flags : String) : Bool :=
  flags.toList.any (fun c => c == Char.ofNat 60 || c == Char.ofNat 91)

/-- Attribute key of an option: its long flag without the leading dashes
("-t, --tag" yields "tag"; dash has code 45). -/
def optionKey (flags : String) : String :=
  match (optionFlagNames flags).getLast? with
  | some long => String.mk (long.toList.dropWhile (fun c => c == Char.ofNat 45))
  | none => ""

/-- Walk the argument tokens, recording each supplied option's value. -/
def parseTokens (opts : List CmdOption) : List String → List (String × OptValue) →
    List (String × OptValue)
  | [], acc => acc
  | tok :: rest, acc =>
    match opts.find? (fun o => (optionFlagNames o.flags).contains tok) with
    | some o =>
      if optionTakesValue o.flags then
        match rest with
        | v :: rest2 => parseTokens opts rest2 (acc ++ [(optionKey o.flags, OptValue.str v)])
        | [] => parseTokens opts [] (acc ++ [(optionKey o.flags, OptValue.boolean true)])
      else
        parseTokens opts rest (acc ++ [(optionKey o.flags, OptValue.boolean true)])
    | none => parseTokens opts rest acc

/-- The options object handed to a command's action handler: each declared
option's supplied value, or its default when not supplied. -/
def parsedOption (opts : List CmdOption) (args : List String) (key : String) : OptValue :=
  match (parseTokens opts args []).lookup key with
  | some v => v
  | none =>
    match opts.find? (fun o => optionKey o.flags = key) with
    | some o => o.defaultValue
    | none => OptValue.boolean false

/-- Default tag id used when no tag option is supplied. -/
def DEFAULT_TAG : String := "generated"

/-- Default locale used when no locale option is supplied. -/
def DEFAULT_LOCALE : String := "en-US"

/-- Options declared on the `setup` command, exactly as in the source:
`.option('-l, --locale', desc, DEFAULT_LOCALE)` and
`.option('-t, --tag', desc, DEFAULT_TAG)` — note that neither flags string
declares a value placeholder. -/
def setupOptions : List CmdOption :=
  [{ flags := "-l, --locale", defaultValue := OptValue.str DEFAULT_LOCALE },
   { flags := "-t, --tag", defaultValue := OptValue.str DEFAULT_TAG }]

/-- Options declared on the `teardown` command, exactly as in the source:
`.option('-t, --tag', desc, DEFAULT_TAG)`. -/
def teardownOptions : List CmdOption :=
  [{ flags := "-t, --tag", defaultValue := OptValue.str DEFAULT_TAG }]

/-!
Closed-form descriptions of run results, used to state and prove the
properties.  These are spec-side artifacts: the theorems below connect them
to the embedded functions.
-/

/-- Metadata holding a single tag link for tag `tag`. -/
def singleTag (tag : String) : Metadata :=
  { tags := [{ type := "Link", linkType := "Tag", id := tag }] }

/-- An asset after one processing or update round trip: version advanced. -/
def bumpAsset (a : AssetProps) : AssetProps :=
  { a with sys := { a.sys with version := a.sys.version + 1 } }

/-- The localized fields an asset creation payload carries for given
metadata, file source and locale. -/
def assetFieldsOf (meta : AssetMeta) (src : FileSource) (locale : String) : AssetFields :=
  { title := [(locale, meta.title)],
    description := [(locale, meta.description)],
    file := [(locale,
      { source := src, contentType := meta.contentType, fileName := meta.fileName })] }

/-- The Picsum image-generation URL for the requested dimensions. -/
def picsumURL (width height : Nat) : String :=
  "https://picsum.photos/" ++ toString width ++ "/" ++ toString height

/-- The tagged form of an asset created at fresh counter `c` with the given
fields: the single tag link set, version still the created one. -/
def createdTaggedAsset (srv : Server) (c : Nat) (flds : AssetFields) (tag : String) : AssetProps :=
  { sys := { id := srv.newId c, version := srv.newVersion c, type := "Asset" },
    metadata := some (singleTag tag),
    fields := flds }

/-- Asset metadata built for iteration `i` of the setup loop. -/
def testImageMeta (gen : Gen) (i : Nat) : AssetMeta :=
  { title := gen.companyName i ++ " featured image",
    description := "Main image for " ++ gen.companyName i ++ ".",
    contentType := "image/jpeg",
    fileName := gen.snakeCase (gen.companyName i) ++ ".jpg" }

/-- Fields of the Picsum asset creation payload for iteration `i`. -/
def picsumAssetFields (gen : Gen) (i : Nat) (locale : String) : AssetFields :=
  { title := [(locale, (testImageMeta gen i).title)],
    description := [(locale, (testImageMeta gen i).description)],
    file := [(locale,
      { source := FileSource.upload
          ("https://picsum.photos/" ++ toString (400 : Nat) ++ "/" ++ toString (225 : Nat)),
        contentType := (testImageMeta gen i).contentType,
        fileName := (testImageMeta gen i).fileName })] }

/-- The Image asset returned by iteration `i` of the setup loop when the
fresh counter stood at `c`: created at counter `c`, tagged, version advanced
by the tagging update. -/
def iterImageAsset (gen : Gen) (srv : Server) (locale tag : String) (i c : Nat) : AssetProps :=
  { sys := { id := srv.newId c, version := srv.newVersion c + 1, type := "Asset" },
    metadata := some (singleTag tag),
    fields := picsumAssetFields gen i locale }

/-- Fields of the Address entry of iteration `i`. -/
def iterAddressFields (gen : Gen) (i : Nat) (locale : String) : Fields :=
  [("houseNumberAndStreet", [(locale, FieldValue.str (gen.streetAddress i))]),
   ("town", [(locale, FieldValue.str (gen.city i))]),
   ("county", [(locale, FieldValue.str (gen.county i))]),
   ("postcode", [(locale, FieldValue.str (gen.zipCode i))])]

/-- The Address entry returned by iteration `i` (fresh counter `c`). -/
def iterAddressEntry (gen : Gen) (srv : Server) (locale tag : String) (i c : Nat) : EntryProps :=
  { sys := { id := srv.newId (c + 1), version := srv.newVersion (c + 1), type := "Entry" },
    metadata := singleTag tag,
    fields := iterAddressFields gen i locale }

/-- Fields of the Article entry of iteration `i` (fresh counter `c`): the
`address` field links the Address entry created at counter `c + 1` and the
`mainImage` field links the Image asset created at counter `c`. -/
def iterArticleFields (gen : Gen) (srv : Server) (locale : String) (i c : Nat) : Fields :=
  [("name", [(locale, FieldValue.str (gen.companyName i))]),
   ("address", [(locale, FieldValue.link "Entry" (srv.newId (c + 1)))]),
   ("mainImage", [(locale, FieldValue.link "Asset" (srv.newId c))]),
   ("slug", [(locale, FieldValue.str (gen.kebabCase (gen.companyName i)))])]

/-- The Article entry returned by iteration `i` (fresh counter `c`). -/
def iterArticleEntry (gen : Gen) (srv : Server) (locale tag : String) (i c : Nat) : EntryProps :=
  { sys := { id := srv.newId (c + 2), version := srv.newVersion (c + 2), type := "Entry" },
    metadata := singleTag tag,
    fields := iterArticleFields gen srv locale i c }

/-- The four remote requests one setup-loop iteration issues, in order:
create the asset (no tag in the payload), update it with the tag, create
the Address entry, create the Article entry. -/
def iterTrace (gen : Gen) (srv : Server) (locale tag : String) (i c : Nat) : List Request :=
  [Request.assetCreate { fields := picsumAssetFields gen i locale, metadata := none },
   Request.assetUpdate (srv.newId c)
     { sys := { id := srv.newId c, version := srv.newVersion c, type := "Asset" },
       metadata := some (singleTag tag),
       fields := picsumAssetFields gen i locale },
   Request.entryCreate "address"
     { fields := iterAddressFields gen i locale, metadata := singleTag tag },
   Request.entryCreate "article"
     { fields := iterArticleFields gen srv locale i c, metadata := singleTag tag }]

/-- Assets collected by `n` setup-loop iterations starting at iteration `i`
and fresh counter `c`. -/
def loopAssets (gen : Gen) (srv : Server) (locale tag : String) : Nat → Nat → Nat → List AssetProps
  | _, _, 0 => []
  | i, c, n + 1 =>
    iterImageAsset gen srv locale tag i c :: loopAssets gen srv locale tag (i + 1) (c + 3) n

/-- Entries collected by `n` setup-loop iterations starting at iteration `i`
and fresh counter `c`: Address then Article, per iteration. -/
def loopEntries (gen : Gen) (srv : Server) (locale tag : String) : Nat → Nat → Nat → List EntryProps
  | _, _, 0 => []
  | i, c, n + 1 =>
    iterAddressEntry gen srv locale tag i c :: iterArticleEntry gen srv locale tag i c ::
      loopEntries gen srv locale tag (i + 1) (c + 3) n

/-- Requests issued by `n` setup-loop iterations starting at iteration `i`
and fresh counter `c`. -/
def loopTrace (gen : Gen) (srv : Server) (locale tag : String) : Nat → Nat → Nat → List Request
  | _, _, 0 => []
  | i, c, n + 1 =>
    iterTrace gen srv locale tag i c ++ loopTrace gen srv locale tag (i + 1) (c + 3) n

/-- The full request trace of a successful setup run: the forty loop
requests, then one processing request per created asset, then the single
bulk publish request covering all twenty entries and all ten processed
assets. -/
def setupTrace (gen : Gen) (srv : Server) (locale tag : String) : List Request :=
  loopTrace gen srv locale tag 0 0 10 ++
  (loopAssets gen srv locale tag 0 0 10).map Request.assetProcess ++
  [Request.bulkPublish srv.spaceId "master" (publishPayload (
     (loopEntries gen srv locale tag 0 0 10).map Item.entry ++
     ((loopAssets gen srv locale tag 0 0 10).map bumpAsset).map Item.asset))]

/-- The items created by the collection loop of a setup run (read off from
the embedded loop itself). -/
def setupCreatedItems (gen : Gen) (srv : Server) (locale tag : String) : Items :=
  match setupLoop gen locale tag 0 10 { assets := [], entries := [] } srv { fresh := 0, trace := [] } with
  | (Except.ok items, _) => items
  | (Except.error _, _) => { assets := [], entries := [] }

/-- The requests issued by the delete-entries phase and delete-assets phase
as well as the two conditional bulk unpublish calls of a teardown run. -/
def teardownTrace (srv : Server) (tag : String) : List Request :=
  [Request.entryGetMany "sys.id" "metadata.tags.sys.id[all]" tag,
   Request.assetGetMany "sys.id" "metadata.tags.sys.id[all]" tag] ++
  (if srv.taggedEntries tag = [] then [] else
    [Request.bulkUnpublish srv.spaceId "master" (unpublishPayload (srv.taggedEntries tag) "Entry")]) ++
  (if srv.taggedAssets tag = [] then [] else
    [Request.bulkUnpublish srv.spaceId "master" (unpublishPayload (srv.taggedAssets tag) "Asset")]) ++
  (srv.taggedEntries tag).map Request.entryDelete ++
  (srv.taggedAssets tag).map Request.assetDelete

/-!
Concrete inputs for witnesses and counterexamples.
-/

/-- A concrete data-generator environment. -/
def demoGen : Gen :=
  { companyName := fun i => "Co" ++ toString i,
    streetAddress := fun i => "Street" ++ toString i,
    city := fun i => "City" ++ toString i,
    county := fun i => "County" ++ toString i,
    zipCode := fun i => "Zip" ++ toString i,
    kebabCase := fun s => s,
    snakeCase := fun s => s }

/-- A concrete server on which every remote call succeeds and no item is
tagged yet. -/
def demoServer : Server :=
  { spaceId := "space1",
    newId := fun n => "id" ++ toString n,
    newVersion := fun _ => 1,
    processOk := fun _ => true,
    taggedEntries := fun _ => [],
    taggedAssets := fun _ => [],}

/-- A concrete server on which asset processing always fails. -/
def failingServer : Server :=
  { demoServer with processOk := fun _ => false }

/-- A concrete server holding some tagged items. -/
def populatedServer : Server :=
  { demoServer with
      taggedEntries := fun _ => ["e1", "e2"],
      taggedAssets := fun _ => ["a1"] }

/-- A concrete entry, for witnesses about item-list functions. -/
def demoEntry : EntryProps :=
  { sys := { id := "entry1", version := 4, type := "Entry" },
    metadata := singleTag "demo",
    fields := [] }

/-- A concrete asset, for witnesses about item-list functions. -/
def demoAsset : AssetProps :=
  { sys := { id := "asset1", version := 2, type := "Asset" },
    metadata := some (singleTag "demo"),
    fields := { title := [], description := [], file := [] } }

/-- A concrete run state, for witnesses about single facade calls. -/
def demoState : CMSState :=
  { fresh := 5, trace := [Request.entryDelete "old"] }

/-!
Run lemmas: the outcome and trace of each embedded function.
-/

/-- Monadic bind on `CMS` is `CMS.bind`. -/
theorem bindCMS_def {α β : Type} (m : CMS α) (f : α → CMS β) : m >>= f = CMS.bind m f := rfl

/-- Monadic pure on `CMS` is `CMS.pure`. -/
theorem pureCMS_def {α : Type} (a : α) : (pure a : CMS α) = CMS.pure a := rfl

/-- Sequencing after a successful step runs the continuation on the new
state. -/
theorem bind_ok {α β : Type} (m : CMS α) (f : α → CMS β) (srv : Server) (s s1 : CMSState)
    (a : α) (h : m srv s = (Except.ok a, s1)) : CMS.bind m f srv s = f a srv s1 := by
  simp [CMS.bind, h]

/-- Sequencing after a failed step propagates the failure and its state. -/
theorem bind_error {α β : Type} (m : CMS α) (f : α → CMS β) (srv : Server) (s s1 : CMSState)
    (e : Err) (h : m srv s = (Except.error e, s1)) : CMS.bind m f srv s = (Except.error e, s1) := by
  simp [CMS.bind, h]

/-- Run equation of `findTaggedEntries`: one query request, returning the
server's tagged entry ids. -/
theorem findTaggedEntries_run (tag : String) (srv : Server) (s : CMSState) :
    findTaggedEntries tag srv s =
      (Except.ok (srv.taggedEntries tag),
       { s with trace := s.trace ++ [Request.entryGetMany "sys.id" "metadata.tags.sys.id[all]" tag] }) := rfl

/-- Run equation of `findTaggedAssets`: one query request, returning the
server's tagged asset ids. -/
theorem findTaggedAssets_run (tag : String) (srv : Server) (s : CMSState) :
    findTaggedAssets tag srv s =
      (Except.ok (srv.taggedAssets tag),
       { s with trace := s.trace ++ [Request.assetGetMany "sys.id" "metadata.tags.sys.id[all]" tag] }) := rfl

/-- Run equation of `deleteEntries`: one delete request per id, in order. -/
theorem deleteEntries_run (ids : List String) (srv : Server) (s : CMSState) :
    deleteEntries ids srv s =
      (Except.ok (ids.map fun _ => ()), { s with trace := s.trace ++ ids.map Request.entryDelete }) := by
  induction ids generalizing s with
  | nil => simp [deleteEntries, promiseAll, CMS.pure]
  | cons x xs ih =>
    simp only [deleteEntries, promiseAll, CMS.bind, emit] at ih ⊢
    simp [ih, CMS.pure, List.append_assoc]

/-- Run equation of `deleteAssets`: one delete request per id, in order. -/
theorem deleteAssets_run (ids : List String) (srv : Server) (s : CMSState) :
    deleteAssets ids srv s =
      (Except.ok (ids.map fun _ => ()), { s with trace := s.trace ++ ids.map Request.assetDelete }) := by
  induction ids generalizing s with
  | nil => simp [deleteAssets, promiseAll, CMS.pure]
  | cons x xs ih =>
    simp only [deleteAssets, promiseAll, CMS.bind, emit] at ih ⊢
    simp [ih, CMS.pure, List.append_assoc]

/-- Run equation of `publishItems`: no request for the empty list, one bulk
publish request otherwise, always succeeding. -/
theorem publishItems_run (items : List Item) (srv : Server) (s : CMSState) :
    publishItems items srv s =
      (Except.ok (),
       { s with trace := s.trace ++
          (if items = [] then [] else
            [Request.bulkPublish srv.spaceId "master" (publishPayload items)]) }) := by
  cases items with
  | nil => simp [publishItems, bindCMS_def, pureCMS_def, CMS.pure]
  | cons x xs =>
    simp [publishItems, bindCMS_def, pureCMS_def, CMS.pure, CMS.bind, emit, server]

/-- Run equation of `unpublishItems`: no request for the empty list, one
bulk unpublish request otherwise, always succeeding. -/
theorem unpublishItems_run (ids : List String) (type : String) (srv : Server) (s : CMSState) :
    unpublishItems ids type srv s =
      (Except.ok (),
       { s with trace := s.trace ++
          (if ids = [] then [] else
            [Request.bulkUnpublish srv.spaceId "master" (unpublishPayload ids type)]) }) := by
  cases ids with
  | nil => simp [unpublishItems, bindCMS_def, pureCMS_def, CMS.pure]
  | cons x xs =>
    simp [unpublishItems, bindCMS_def, pureCMS_def, CMS.pure, CMS.bind, emit, server]

/-- Run equation of one setup-loop iteration: the three created items and
the four requests of `iterTrace`, with the fresh counter advanced by 3. -/
theorem createTestEntry_run (gen : Gen) (i : Nat) (locale tag : String) (srv : Server)
    (c : Nat) (tr : List Request) :
    createTestEntry gen i locale tag srv { fresh := c, trace := tr } =
      (Except.ok { assets := [iterImageAsset gen srv locale tag i c],
                   entries := [iterAddressEntry gen srv locale tag i c,
                               iterArticleEntry gen srv locale tag i c] },
       { fresh := c + 3, trace := tr ++ iterTrace gen srv locale tag i c }) := by
  simp [createTestEntry, createAssetFromPicsum, createEntry, tagAsset, emit, freshSys,
        CMS.bind, CMS.pure, bindCMS_def, pureCMS_def, iterImageAsset, iterAddressEntry,
        iterArticleEntry, iterTrace, picsumAssetFields, testImageMeta, iterAddressFields,
        iterArticleFields, singleTag, List.append_assoc]

/-- Run equation of one asset-processing call when the server processes the
asset successfully: one request, version advanced. -/
theorem processForAllLocales_run_ok (a : AssetProps) (srv : Server) (s : CMSState)
    (h : srv.processOk a.sys.id = true) :
    processForAllLocales a srv s =
      (Except.ok (bumpAsset a), { s with trace := s.trace ++ [Request.assetProcess a] }) := by
  simp [processForAllLocales, bindCMS_def, pureCMS_def, CMS.bind, CMS.pure, emit, server, h,
        bumpAsset]

/-- Run equation of `processAssets` when every asset processes successfully:
one processing request per asset, in order, all versions advanced. -/
theorem processAssets_run_ok (assets : List AssetProps) (srv : Server) (s : CMSState)
    (h : ∀ a ∈ assets, srv.processOk a.sys.id = true) :
    processAssets assets srv s =
      (Except.ok (assets.map bumpAsset),
       { s with trace := s.trace ++ assets.map Request.assetProcess }) := by
  induction assets generalizing s with
  | nil => simp [processAssets, promiseAll, CMS.pure]
  | cons a as ih =>
    have ha : srv.processOk a.sys.id = true := h a (by simp)
    have has : ∀ x ∈ as, srv.processOk x.sys.id = true := fun x hx => h x (by simp [hx])
    simp only [processAssets, promiseAll] at ih ⊢
    rw [bind_ok _ _ _ _ _ _ (processForAllLocales_run_ok a srv s ha)]
    rw [bind_ok _ _ _ _ _ _ (ih _ has)]
    simp [CMS.pure, List.append_assoc]

/-- When the server fails processing for some asset of the batch,
`processAssets` rejects, and the requests it did issue are processing
requests only. -/
theorem processAssets_run_fail (assets : List AssetProps) (srv : Server) (s : CMSState)
    (h : ∃ a ∈ assets, srv.processOk a.sys.id = false) :
    ∃ e s1, processAssets assets srv s = (Except.error e, s1) ∧
      ∃ l, s1.trace = s.trace ++ l ∧ ∀ r ∈ l, ∃ a, r = Request.assetProcess a := by
  induction assets generalizing s with
  | nil => simp at h
  | cons a as ih =>
    by_cases ha : srv.processOk a.sys.id = true
    · have has : ∃ x ∈ as, srv.processOk x.sys.id = false := by
        rcases h with ⟨x, hx, hfx⟩
        rcases List.mem_cons.mp hx with hxa | hx2
        · rw [hxa, ha] at hfx; cases hfx
        · exact ⟨x, hx2, hfx⟩
      obtain ⟨e, s1, heq, l, hl, hall⟩ :=
        ih { s with trace := s.trace ++ [Request.assetProcess a] } has
      refine ⟨e, s1, ?_, [Request.assetProcess a] ++ l, ?_, ?_⟩
      · simp only [processAssets, promiseAll] at heq ⊢
        rw [bind_ok _ _ _ _ _ _ (processForAllLocales_run_ok a srv s ha)]
        rw [bind_error _ _ _ _ _ _ heq]
      · rw [hl]; simp [List.append_assoc]
      · intro r hr
        rcases List.mem_append.mp hr with hr1 | hr2
        · exact ⟨a, by simpa using hr1⟩
        · exact hall r hr2
    · refine ⟨Err.processingFailed a.sys.id,
        { s with trace := s.trace ++ [Request.assetProcess a] },
        ?_, [Request.assetProcess a], by simp, ?_⟩
      · simp only [processAssets, promiseAll]
        have hfa : srv.processOk a.sys.id = false := by
          cases hpo : srv.processOk a.sys.id with
          | true => exact absurd hpo ha
          | false => rfl
        simp [processForAllLocales, bindCMS_def, pureCMS_def, CMS.bind, CMS.pure, emit,
              server, fail, hfa]
      · intro r hr
        exact ⟨a, by simpa using hr⟩

/-- Run equation of the setup collection loop: starting at iteration `i`
and fresh counter `c`, `n` iterations append the closed-form assets and
entries to the accumulator, advance the counter by `3 * n` and issue the
closed-form loop trace. -/
theorem setupLoop_run (gen : Gen) (srv : Server) (locale tag : String) :
    ∀ (n i c : Nat) (acc : Items) (tr : List Request),
    setupLoop gen locale tag i n acc srv { fresh := c, trace := tr } =
      (Except.ok { assets := acc.assets ++ loopAssets gen srv locale tag i c n,
                   entries := acc.entries ++ loopEntries gen srv locale tag i c n },
       { fresh := c + 3 * n, trace := tr ++ loopTrace gen srv locale tag i c n }) := by
  intro n
  induction n with
  | zero =>
    intro i c acc tr
    simp [setupLoop, loopAssets, loopEntries, loopTrace, CMS.pure]
  | succ m ih =>
    intro i c acc tr
    simp only [setupLoop]
    rw [bind_ok _ _ _ _ _ _ (createTestEntry_run gen i locale tag srv c tr)]
    rw [ih (i + 1) (c + 3)]
    have harith : c + 3 + 3 * m = c + 3 * (m + 1) := by ring
    rw [harith]
    simp [loopAssets, loopEntries, loopTrace, List.append_assoc]

/-- The entries list produced by a nonzero number of loop iterations is
nonempty. -/
theorem loopEntries_ne_nil (gen : Gen) (srv : Server) (locale tag : String)
    (i c n : Nat) (h : n ≠ 0) : loopEntries gen srv locale tag i c n ≠ [] := by
  cases n with
  | zero => exact absurd rfl h
  | succ m => simp [loopEntries]

/-- Run equation of a setup run on a server that processes every asset
successfully: the run succeeds and issues exactly `setupTrace`. -/
theorem setupCommand_run_ok (gen : Gen) (srv : Server) (tag locale : String)
    (h : ∀ id, srv.processOk id = true) :
    runCMS (setupCommand gen tag locale) srv =
      (Except.ok (), { fresh := 30, trace := setupTrace gen srv locale tag }) := by
  have hne : (loopEntries gen srv locale tag 0 0 10).map Item.entry ++
      ((loopAssets gen srv locale tag 0 0 10).map bumpAsset).map Item.asset ≠ [] := by
    intro hcontra
    rcases List.append_eq_nil.mp hcontra with ⟨h1, _⟩
    exact loopEntries_ne_nil gen srv locale tag 0 0 10 (by decide)
      (List.map_eq_nil_iff.mp h1)
  show setupCommand gen tag locale srv { fresh := 0, trace := [] } = _
  simp only [setupCommand, bindCMS_def, pureCMS_def]
  rw [bind_ok _ _ _ _ _ _
    (setupLoop_run gen srv locale tag 10 0 0 { assets := [], entries := [] } [])]
  simp only [List.nil_append]
  rw [bind_ok _ _ _ _ _ _
    (processAssets_run_ok (loopAssets gen srv locale tag 0 0 10) srv _
      (fun a _ => h a.sys.id))]
  rw [publishItems_run]
  rw [if_neg hne]
  simp [setupTrace, List.append_assoc]

/-- The loop trace of `n` iterations contains exactly `n` Address entry
creation requests. -/
theorem loopTrace_count_address (gen : Gen) (srv : Server) (locale tag : String) :
    ∀ n i c, (loopTrace gen srv locale tag i c n).countP (Request.isCreateOfType "address") = n := by
  intro n
  induction n with
  | zero => intro i c; simp [loopTrace]
  | succ m ih =>
    intro i c
    simp [loopTrace, iterTrace, List.countP_append, List.countP_cons, ih,
          Request.isCreateOfType]

/-- The loop trace of `n` iterations contains exactly `n` Article entry
creation requests. -/
theorem loopTrace_count_article (gen : Gen) (srv : Server) (locale tag : String) :
    ∀ n i c, (loopTrace gen srv locale tag i c n).countP (Request.isCreateOfType "article") = n := by
  intro n
  induction n with
  | zero => intro i c; simp [loopTrace]
  | succ m ih =>
    intro i c
    simp [loopTrace, iterTrace, List.countP_append, List.countP_cons, ih,
          Request.isCreateOfType]

/-- The loop trace of `n` iterations contains exactly `n` asset creation
requests. -/
theorem loopTrace_count_assetCreation (gen : Gen) (srv : Server) (locale tag : String) :
    ∀ n i c, (loopTrace gen srv locale tag i c n).countP Request.isAssetCreation = n := by
  intro n
  induction n with
  | zero => intro i c; simp [loopTrace]
  | succ m ih =>
    intro i c
    simp [loopTrace, iterTrace, List.countP_append, List.countP_cons, ih,
          Request.isAssetCreation]

/-- The loop trace contains no bulk publish request. -/
theorem loopTrace_no_publish (gen : Gen) (srv : Server) (locale tag : String) :
    ∀ n i c, ∀ r ∈ loopTrace gen srv locale tag i c n, r.isBulkPublish = false := by
  intro n
  induction n with
  | zero => intro i c r hr; simp [loopTrace] at hr
  | succ m ih =>
    intro i c r hr
    simp only [loopTrace, List.mem_append] at hr
    rcases hr with hr1 | hr2
    · simp only [iterTrace, List.mem_cons, List.mem_singleton] at hr1
      rcases hr1 with rfl | rfl | rfl | h4
      · rfl
      · rfl
      · rfl
      · rcases h4 with rfl | h5
        · rfl
        · simp at h5
    · exact ih (i + 1) (c + 3) r hr2

/-- The loop creates `n` assets. -/
theorem loopAssets_length (gen : Gen) (srv : Server) (locale tag : String) :
    ∀ n i c, (loopAssets gen srv locale tag i c n).length = n := by
  intro n
  induction n with
  | zero => intro i c; simp [loopAssets]
  | succ m ih => intro i c; simp [loopAssets, ih]

/-- The loop creates `2 * n` entries. -/
theorem loopEntries_length (gen : Gen) (srv : Server) (locale tag : String) :
    ∀ n i c, (loopEntries gen srv locale tag i c n).length = 2 * n := by
  intro n
  induction n with
  | zero => intro i c; simp [loopEntries]
  | succ m ih => intro i c; simp [loopEntries, ih]; ring

/-- Every entry created by the loop carries exactly the single tag link. -/
theorem loopEntries_metadata (gen : Gen) (srv : Server) (locale tag : String) :
    ∀ n i c, ∀ e ∈ loopEntries gen srv locale tag i c n, e.metadata = singleTag tag := by
  intro n
  induction n with
  | zero => intro i c e he; simp [loopEntries] at he
  | succ m ih =>
    intro i c e he
    simp only [loopEntries, List.mem_cons] at he
    rcases he with rfl | rfl | he2
    · rfl
    · rfl
    · exact ih (i + 1) (c + 3) e he2

/-- Every asset created by the loop carries exactly the single tag link. -/
theorem loopAssets_metadata (gen : Gen) (srv : Server) (locale tag : String) :
    ∀ n i c, ∀ a ∈ loopAssets gen srv locale tag i c n, a.metadata = some (singleTag tag) := by
  intro n
  induction n with
  | zero => intro i c a ha; simp [loopAssets] at ha
  | succ m ih =>
    intro i c a ha
    simp only [loopAssets, List.mem_cons] at ha
    rcases ha with rfl | ha2
    · rfl
    · exact ih (i + 1) (c + 3) a ha2

/-- The `k`-th asset created by `n` loop iterations is the image asset of
iteration `i + k`, created at fresh counter `c + 3 * k`. -/
theorem loopAssets_getElem (gen : Gen) (srv : Server) (locale tag : String) :
    ∀ n k i c, k < n →
      (loopAssets gen srv locale tag i c n)[k]? =
        some (iterImageAsset gen srv locale tag (i + k) (c + 3 * k)) := by
  intro n
  induction n with
  | zero => intro k i c hk; exact absurd hk (by omega)
  | succ m ih =>
    intro k i c hk
    cases k with
    | zero => simp [loopAssets]
    | succ j =>
      have hj : j < m := by omega
      have h1 : i + 1 + j = i + (j + 1) := by ring
      have h2 : c + 3 + 3 * j = c + 3 * (j + 1) := by ring
      simp only [loopAssets, List.getElem?_cons_succ]
      rw [ih j (i + 1) (c + 3) hj, h1, h2]

/-- The `2k`-th entry created by `n` loop iterations is the Address entry of
iteration `i + k`. -/
theorem loopEntries_getElem_even (gen : Gen) (srv : Server) (locale tag : String) :
    ∀ n k i c, k < n →
      (loopEntries gen srv locale tag i c n)[2 * k]? =
        some (iterAddressEntry gen srv locale tag (i + k) (c + 3 * k)) := by
  intro n
  induction n with
  | zero => intro k i c hk; exact absurd hk (by omega)
  | succ m ih =>
    intro k i c hk
    cases k with
    | zero => simp [loopEntries]
    | succ j =>
      have hj : j < m := by omega
      have h0 : 2 * (j + 1) = 2 * j + 1 + 1 := by ring
      have h1 : i + 1 + j = i + (j + 1) := by ring
      have h2 : c + 3 + 3 * j = c + 3 * (j + 1) := by ring
      rw [h0]
      simp only [loopEntries, List.getElem?_cons_succ]
      rw [ih j (i + 1) (c + 3) hj, h1, h2]

/-- The `2k + 1`-st entry created by `n` loop iterations is the Article
entry of iteration `i + k`. -/
theorem loopEntries_getElem_odd (gen : Gen) (srv : Server) (locale tag : String) :
    ∀ n k i c, k < n →
      (loopEntries gen srv locale tag i c n)[2 * k + 1]? =
        some (iterArticleEntry gen srv locale tag (i + k) (c + 3 * k)) := by
  intro n
  induction n with
  | zero => intro k i c hk; exact absurd hk (by omega)
  | succ m ih =>
    intro k i c hk
    cases k with
    | zero => simp [loopEntries]
    | succ j =>
      have hj : j < m := by omega
      have h0 : 2 * (j + 1) + 1 = 2 * j + 1 + 1 + 1 := by ring
      have h1 : i + 1 + j = i + (j + 1) := by ring
      have h2 : c + 3 + 3 * j = c + 3 * (j + 1) := by ring
      rw [h0]
      simp only [loopEntries, List.getElem?_cons_succ]
      rw [ih j (i + 1) (c + 3) hj, h1, h2]

/-- The Article fields of iteration `i` link the Address entry created at
counter `c + 1` in the `address` field. -/
theorem getField_article_address (gen : Gen) (srv : Server) (locale : String) (i c : Nat) :
    getField (iterArticleFields gen srv locale i c) "address" locale =
      some (FieldValue.link "Entry" (srv.newId (c + 1))) := by
  simp [iterArticleFields, getField, List.lookup]

/-- The Article fields of iteration `i` link the Image asset created at
counter `c` in the `mainImage` field. -/
theorem getField_article_mainImage (gen : Gen) (srv : Server) (locale : String) (i c : Nat) :
    getField (iterArticleFields gen srv locale i c) "mainImage" locale =
      some (FieldValue.link "Asset" (srv.newId c)) := by
  simp [iterArticleFields, getField, List.lookup]

/-- The items `setupCreatedItems` reads off the loop are the closed-form
loop assets and entries. -/
theorem setupCreatedItems_eq (gen : Gen) (srv : Server) (locale tag : String) :
    setupCreatedItems gen srv locale tag =
      { assets := loopAssets gen srv locale tag 0 0 10,
        entries := loopEntries gen srv locale tag 0 0 10 } := by
  unfold setupCreatedItems
  rw [setupLoop_run gen srv locale tag 10 0 0 { assets := [], entries := [] } []]
  simp

/-- The ids of the links of a bulk publish payload are the ids of the
published items, in order. -/
theorem publishPayload_ids (items : List Item) :
    (publishPayload items).items.map (fun l => l.id) = items.map (fun it => it.sys.id) := by
  simp [publishPayload, List.map_map]

/-- Wrapping entries as items preserves the id sequence. -/
theorem entryItems_ids (E : List EntryProps) :
    (E.map Item.entry).map (fun it => it.sys.id) = E.map (fun e => e.sys.id) := by
  rw [List.map_map]
  rfl

/-- Wrapping version-advanced assets as items preserves the id sequence. -/
theorem assetItems_bump_ids (A : List AssetProps) :
    ((A.map bumpAsset).map Item.asset).map (fun it => it.sys.id) =
      A.map (fun a => a.sys.id) := by
  rw [List.map_map, List.map_map]
  rfl

/-- Run equation of `teardownCommand`: the two find queries, then the two
conditional bulk unpublish requests (entries before assets), then one delete
request per entry id, then one delete request per asset id — in that literal
order, and the run succeeds. -/
theorem teardownCommand_run (tag : String) (srv : Server) (s : CMSState) :
    teardownCommand tag srv s =
      (Except.ok (), { s with trace := s.trace ++ teardownTrace srv tag }) := by
  simp [teardownCommand, bindCMS_def, pureCMS_def, CMS.bind, CMS.pure,
        findTaggedEntries, findTaggedAssets, emit, server,
        unpublishEntries, unpublishAssets, unpublishItems_run,
        deleteEntries_run, deleteAssets_run, teardownTrace, List.append_assoc]

/-!
Claim theorems.
-/

/-- C3: every teardown run performs its phases in the literal order —
unpublish all found entries, then unpublish all found assets, then delete
all found entries, then delete all found assets — with each phase's
requests fully issued (settled) before the next phase's, as witnessed by
the exact request trace of the run. -/
theorem teardown_phase_order (tag : String) (srv : Server) (s : CMSState) :
    teardownCommand tag srv s =
      (Except.ok (),
       { s with trace := s.trace ++
          ([Request.entryGetMany "sys.id" "metadata.tags.sys.id[all]" tag,
            Request.assetGetMany "sys.id" "metadata.tags.sys.id[all]" tag] ++
           (if srv.taggedEntries tag = [] then [] else
             [Request.bulkUnpublish srv.spaceId "master"
               (unpublishPayload (srv.taggedEntries tag) "Entry")]) ++
           (if srv.taggedAssets tag = [] then [] else
             [Request.bulkUnpublish srv.spaceId "master"
               (unpublishPayload (srv.taggedAssets tag) "Asset")]) ++
           (srv.taggedEntries tag).map Request.entryDelete ++
           (srv.taggedAssets tag).map Request.assetDelete) }) :=
  teardownCommand_run tag srv s

/-- C4: `publishItems` and `unpublishItems` issue no bulk-action request on
the empty list and resolve without error; on every non-empty list each
issues exactly one bulk request. -/
theorem bulk_actions_empty_noop_nonempty_single (srv : Server) (s : CMSState)
    (type : String) (items : List Item) (ids : List String) :
    publishItems [] srv s = (Except.ok (), s) ∧
    unpublishItems [] type srv s = (Except.ok (), s) ∧
    publishItems items srv s =
      (Except.ok (), { s with trace := s.trace ++
        (if items = [] then [] else
          [Request.bulkPublish srv.spaceId "master" (publishPayload items)]) }) ∧
    unpublishItems ids type srv s =
      (Except.ok (), { s with trace := s.trace ++
        (if ids = [] then [] else
          [Request.bulkUnpublish srv.spaceId "master" (unpublishPayload ids type)]) }) := by
  refine ⟨?_, ?_, publishItems_run items srv s, unpublishItems_run ids type srv s⟩
  · rw [publishItems_run]; simp
  · rw [unpublishItems_run]; simp

/-- C5: the `--tag` option is declared without a value placeholder, so the
modelled commander semantics treat it as a boolean flag: `setup --tag demo`
hands the action handler `options.tag = true`, never the string "demo"; the
string defaults do apply when the options are omitted. -/
theorem cli_tag_flag_is_boolean :
    parsedOption setupOptions ["--tag", "demo"] "tag" = OptValue.boolean true ∧
    parsedOption setupOptions ["--tag", "demo"] "tag" ≠ OptValue.str "demo" ∧
    parsedOption setupOptions [] "tag" = OptValue.str "generated" ∧
    parsedOption setupOptions [] "locale" = OptValue.str "en-US" ∧
    parsedOption setupOptions ["--locale", "fr-FR"] "locale" = OptValue.boolean true ∧
    parsedOption teardownOptions ["--tag", "demo"] "tag" = OptValue.boolean true := by
  decide

/-- C6: both asset creation functions first create the asset with a payload
carrying no tag, then attach the tag by a second, separate update call, and
return the updated, tagged asset. -/
theorem asset_creation_two_step (meta : AssetMeta) (width height : Nat)
    (file locale tag : String) (srv : Server) (s : CMSState) :
    (∃ createProps tagged,
      createProps.metadata = none ∧
      tagged.metadata = some (singleTag tag) ∧
      (bumpAsset tagged).metadata = some (singleTag tag) ∧
      createAssetFromPicsum meta width height locale tag srv s =
        (Except.ok (bumpAsset tagged),
         { fresh := s.fresh + 1,
           trace := s.trace ++ [Request.assetCreate createProps,
                                Request.assetUpdate tagged.sys.id tagged] })) ∧
    (∃ createProps tagged,
      createProps.metadata = none ∧
      tagged.metadata = some (singleTag tag) ∧
      (bumpAsset tagged).metadata = some (singleTag tag) ∧
      createAssetFromFile meta file locale tag srv s =
        (Except.ok (bumpAsset tagged),
         { fresh := s.fresh + 1,
           trace := s.trace ++ [Request.assetCreateFromFiles createProps,
                                Request.assetUpdate tagged.sys.id tagged] })) := by
  constructor
  · refine ⟨{ fields := assetFieldsOf meta (FileSource.upload (picsumURL width height)) locale,
              metadata := none },
      createdTaggedAsset srv s.fresh
        (assetFieldsOf meta (FileSource.upload (picsumURL width height)) locale) tag,
      rfl, rfl, rfl, ?_⟩
    simp [createAssetFromPicsum, tagAsset, emit, freshSys, CMS.bind, CMS.pure, bindCMS_def,
          pureCMS_def, singleTag, bumpAsset, assetFieldsOf, picsumURL, createdTaggedAsset,
          List.append_assoc]
  · refine ⟨{ fields := assetFieldsOf meta (FileSource.stream file) locale,
              metadata := none },
      createdTaggedAsset srv s.fresh (assetFieldsOf meta (FileSource.stream file) locale) tag,
      rfl, rfl, rfl, ?_⟩
    simp [createAssetFromFile, tagAsset, emit, freshSys, CMS.bind, CMS.pure, bindCMS_def,
          pureCMS_def, singleTag, bumpAsset, assetFieldsOf, createdTaggedAsset,
          List.append_assoc]

/-- C8: re-tagging an asset with the same tag id sends an update payload
holding exactly one tag link (the tags list is replaced, not appended to),
and the resulting asset carries exactly that one tag link. -/
theorem tagAsset_single_tag_replacement (asset : AssetProps) (tag : String)
    (srv : Server) (s : CMSState) :
    ∃ a1 s1 a2 s2 u2,
      tagAsset asset tag srv s = (Except.ok a1, s1) ∧
      tagAsset a1 tag srv s1 = (Except.ok a2, s2) ∧
      s2.trace = s1.trace ++ [Request.assetUpdate a1.sys.id u2] ∧
      u2.metadata = some (singleTag tag) ∧
      (singleTag tag).tags.length = 1 ∧
      a2.metadata = some (singleTag tag) := by
  have h1 : tagAsset asset tag srv s =
      (Except.ok (bumpAsset { asset with metadata := some (singleTag tag) }),
       { s with trace := s.trace ++
          [Request.assetUpdate asset.sys.id
            { asset with metadata := some (singleTag tag) }] }) := rfl
  have h2 : tagAsset (bumpAsset { asset with metadata := some (singleTag tag) }) tag srv
      { s with trace := s.trace ++
          [Request.assetUpdate asset.sys.id
            { asset with metadata := some (singleTag tag) }] } =
      (Except.ok (bumpAsset
        { bumpAsset { asset with metadata := some (singleTag tag) } with
            metadata := some (singleTag tag) }),
       { s with trace := (s.trace ++
          [Request.assetUpdate asset.sys.id
            { asset with metadata := some (singleTag tag) }]) ++
          [Request.assetUpdate
            (bumpAsset { asset with metadata := some (singleTag tag) }).sys.id
            { bumpAsset { asset with metadata := some (singleTag tag) } with
                metadata := some (singleTag tag) }] }) := rfl
  exact ⟨_, _, _, _, _, h1, h2, rfl, rfl, rfl, rfl⟩

/-- C9: for every non-empty item list, `publishItems` submits exactly one
bulk publish request whose payload holds one link per input item, in input
order, carrying the item's id, version and type as linkType. -/
theorem publishItems_payload_links (items : List Item) (srv : Server) (s : CMSState)
    (h : items ≠ []) :
    publishItems items srv s =
      (Except.ok (),
       { s with trace := s.trace ++
          [Request.bulkPublish srv.spaceId "master"
            { arrayType := "Array",
              items := items.map (fun item =>
                { type := "Link", id := item.sys.id,
                  version := some item.sys.version, linkType := item.sys.type }) }] }) := by
  rw [publishItems_run, if_neg h]
  rfl

/-- Witness for C9: a concrete two-item list, the single bulk request and
its two links computed explicitly. -/
theorem publishItems_payload_links_witness :
    ([Item.entry demoEntry, Item.asset demoAsset] ≠ []) ∧
    publishItems [Item.entry demoEntry, Item.asset demoAsset] demoServer demoState =
      (Except.ok (),
       { demoState with trace := demoState.trace ++
          [Request.bulkPublish demoServer.spaceId "master"
            { arrayType := "Array",
              items := [Item.entry demoEntry, Item.asset demoAsset].map (fun item =>
                { type := "Link", id := item.sys.id,
                  version := some item.sys.version, linkType := item.sys.type }) }] }) :=
  ⟨by simp, publishItems_payload_links [Item.entry demoEntry, Item.asset demoAsset]
    demoServer demoState (by simp)⟩

/-- C10: a teardown run whose tag matches no entries and no assets issues
only the two find queries — no bulk-action request and no delete request —
and resolves without error. -/
theorem teardown_no_matches_noop (tag : String) (srv : Server)
    (h1 : srv.taggedEntries tag = []) (h2 : srv.taggedAssets tag = []) :
    resultOf (teardownCommand tag) srv = Except.ok () ∧
    traceOf (teardownCommand tag) srv =
      [Request.entryGetMany "sys.id" "metadata.tags.sys.id[all]" tag,
       Request.assetGetMany "sys.id" "metadata.tags.sys.id[all]" tag] ∧
    ∀ r ∈ traceOf (teardownCommand tag) srv, r.isBulkAction = false ∧ r.isDelete = false := by
  have htr : traceOf (teardownCommand tag) srv =
      [Request.entryGetMany "sys.id" "metadata.tags.sys.id[all]" tag,
       Request.assetGetMany "sys.id" "metadata.tags.sys.id[all]" tag] := by
    unfold traceOf runCMS
    rw [teardownCommand_run]
    simp [teardownTrace, h1, h2]
  refine ⟨?_, htr, ?_⟩
  · unfold resultOf runCMS
    rw [teardownCommand_run]
  · rw [htr]
    intro r hr
    rcases List.mem_cons.mp hr with hr1 | hr2
    · subst hr1; exact ⟨rfl, rfl⟩
    · rw [List.mem_singleton] at hr2
      subst hr2; exact ⟨rfl, rfl⟩

/-- A list of processing requests contains no request of a kind the
predicate rejects on processing requests. -/
theorem countP_map_assetProcess (A : List AssetProps) (p : Request → Bool)
    (hp : ∀ a : AssetProps, p (Request.assetProcess a) = false) :
    (A.map Request.assetProcess).countP p = 0 := by
  apply List.countP_eq_zero.mpr
  intro r hr
  rcases List.mem_map.mp hr with ⟨a, _, rfl⟩
  simp [hp]

/-- Run equation of a setup run on a server that fails processing for one
of the created assets: the run rejects, having issued the loop requests and
then processing requests only. -/
theorem setupCommand_run_fail (gen : Gen) (srv : Server) (tag locale : String)
    (h : ∃ a ∈ loopAssets gen srv locale tag 0 0 10, srv.processOk a.sys.id = false) :
    ∃ e s1, runCMS (setupCommand gen tag locale) srv = (Except.error e, s1) ∧
      ∃ l, s1.trace = loopTrace gen srv locale tag 0 0 10 ++ l ∧
           ∀ r ∈ l, ∃ a, r = Request.assetProcess a := by
  obtain ⟨e, s1, heq, l, hl, hall⟩ :=
    processAssets_run_fail (loopAssets gen srv locale tag 0 0 10) srv
      { fresh := 0 + 3 * 10, trace := [] ++ loopTrace gen srv locale tag 0 0 10 } h
  refine ⟨e, s1, ?_, l, ?_, hall⟩
  · unfold runCMS
    simp only [setupCommand, bindCMS_def, pureCMS_def]
    rw [bind_ok _ _ _ _ _ _
      (setupLoop_run gen srv locale tag 10 0 0 { assets := [], entries := [] } [])]
    exact bind_error _ _ _ _ _ _ heq
  · rw [hl]; simp

/-- C1 counterexample: on a concrete successful run the final bulk publish
payload holds 30 item links — the 20 entries plus the 10 assets — not 20 as
the claim counts. -/
theorem setup_publish_count_not_twenty :
    (match (traceOf (setupCommand demoGen "demo" "en-US") demoServer).getLast? with
     | some (Request.bulkPublish _ _ payload) => payload.items.length
     | _ => 0) = 30 ∧ (30 : Nat) ≠ 20 := by
  have htr : traceOf (setupCommand demoGen "demo" "en-US") demoServer =
      setupTrace demoGen demoServer "en-US" "demo" := by
    unfold traceOf
    rw [setupCommand_run_ok demoGen demoServer "demo" "en-US" (fun _ => rfl)]
  constructor
  · rw [htr]
    have hlast : (setupTrace demoGen demoServer "en-US" "demo").getLast? =
        some (Request.bulkPublish demoServer.spaceId "master" (publishPayload (
          (loopEntries demoGen demoServer "en-US" "demo" 0 0 10).map Item.entry ++
          ((loopAssets demoGen demoServer "en-US" "demo" 0 0 10).map bumpAsset).map
            Item.asset))) := by
      unfold setupTrace
      rw [List.getLast?_concat]
    rw [hlast]
    simp [publishPayload, List.length_append, List.length_map, loopAssets_length,
          loopEntries_length]
  · decide

/-- C1 (amended): every setup run with tag T and locale L on a server that
processes all assets successfully creates exactly 10 Address entries, 10
Image assets and 10 Article entries, each created entry and asset carrying
tag T, and ends with a final bulk publish call covering all 30 created
items (the 20 entries and the 10 assets). -/
theorem setup_run_contents (gen : Gen) (srv : Server) (tag locale : String)
    (h : ∀ id, srv.processOk id = true) :
    (traceOf (setupCommand gen tag locale) srv).countP (Request.isCreateOfType "address") = 10 ∧
    (traceOf (setupCommand gen tag locale) srv).countP (Request.isCreateOfType "article") = 10 ∧
    (traceOf (setupCommand gen tag locale) srv).countP Request.isAssetCreation = 10 ∧
    (setupCreatedItems gen srv locale tag).assets.length = 10 ∧
    (setupCreatedItems gen srv locale tag).entries.length = 20 ∧
    (∀ e ∈ (setupCreatedItems gen srv locale tag).entries, e.metadata = singleTag tag) ∧
    (∀ a ∈ (setupCreatedItems gen srv locale tag).assets, a.metadata = some (singleTag tag)) ∧
    (∃ pre payload,
      traceOf (setupCommand gen tag locale) srv =
        pre ++ [Request.bulkPublish srv.spaceId "master" payload] ∧
      payload.items.length = 30 ∧
      payload.items.map (fun l => l.id) =
        (setupCreatedItems gen srv locale tag).entries.map (fun e => e.sys.id) ++
        (setupCreatedItems gen srv locale tag).assets.map (fun a => a.sys.id)) := by
  have htr : traceOf (setupCommand gen tag locale) srv = setupTrace gen srv locale tag := by
    unfold traceOf
    rw [setupCommand_run_ok gen srv tag locale h]
  have hci := setupCreatedItems_eq gen srv locale tag
  refine ⟨?_, ?_, ?_, ?_, ?_, ?_, ?_, ?_⟩
  · rw [htr]
    simp [setupTrace, List.countP_append, loopTrace_count_address,
          countP_map_assetProcess _ (Request.isCreateOfType "address") (fun a => rfl),
          List.countP_cons, Request.isCreateOfType]
  · rw [htr]
    simp [setupTrace, List.countP_append, loopTrace_count_article,
          countP_map_assetProcess _ (Request.isCreateOfType "article") (fun a => rfl),
          List.countP_cons, Request.isCreateOfType]
  · rw [htr]
    simp [setupTrace, List.countP_append, loopTrace_count_assetCreation,
          countP_map_assetProcess _ Request.isAssetCreation (fun a => rfl),
          List.countP_cons, Request.isAssetCreation]
  · rw [hci]; simp [loopAssets_length]
  · rw [hci]; simp [loopEntries_length]
  · rw [hci]
    intro e he
    exact loopEntries_metadata gen srv locale tag 10 0 0 e he
  · rw [hci]
    intro a ha
    exact loopAssets_metadata gen srv locale tag 10 0 0 a ha
  · refine ⟨loopTrace gen srv locale tag 0 0 10 ++
        (loopAssets gen srv locale tag 0 0 10).map Request.assetProcess,
      publishPayload (
        (loopEntries gen srv locale tag 0 0 10).map Item.entry ++
        ((loopAssets gen srv locale tag 0 0 10).map bumpAsset).map Item.asset),
      ?_, ?_, ?_⟩
    · rw [htr]
      simp [setupTrace, List.append_assoc]
    · simp [publishPayload, List.length_append, List.length_map, loopAssets_length,
            loopEntries_length]
    · rw [publishPayload_ids, hci, List.map_append, entryItems_ids, assetItems_bump_ids]

/-- Witness for C1 (amended): the theorem instantiated on the concrete
generator and the all-processing server, with tag "demo" and locale
"en-US". -/
theorem setup_run_contents_witness :
    (∀ id, demoServer.processOk id = true) ∧
    ((traceOf (setupCommand demoGen "demo" "en-US") demoServer).countP
        (Request.isCreateOfType "address") = 10 ∧
     (traceOf (setupCommand demoGen "demo" "en-US") demoServer).countP
        (Request.isCreateOfType "article") = 10 ∧
     (traceOf (setupCommand demoGen "demo" "en-US") demoServer).countP
        Request.isAssetCreation = 10 ∧
     (setupCreatedItems demoGen demoServer "en-US" "demo").assets.length = 10 ∧
     (setupCreatedItems demoGen demoServer "en-US" "demo").entries.length = 20 ∧
     (∀ e ∈ (setupCreatedItems demoGen demoServer "en-US" "demo").entries,
        e.metadata = singleTag "demo") ∧
     (∀ a ∈ (setupCreatedItems demoGen demoServer "en-US" "demo").assets,
        a.metadata = some (singleTag "demo")) ∧
     (∃ pre payload,
        traceOf (setupCommand demoGen "demo" "en-US") demoServer =
          pre ++ [Request.bulkPublish demoServer.spaceId "master" payload] ∧
        payload.items.length = 30 ∧
        payload.items.map (fun l => l.id) =
          (setupCreatedItems demoGen demoServer "en-US" "demo").entries.map
            (fun e => e.sys.id) ++
          (setupCreatedItems demoGen demoServer "en-US" "demo").assets.map
            (fun a => a.sys.id))) :=
  ⟨fun _ => rfl, setup_run_contents demoGen demoServer "demo" "en-US" (fun _ => rfl)⟩

/-- C2: in every setup run, if asset processing fails for any one of the
created image assets, then no bulk publish request is ever issued, so no
item created in that run is published. -/
theorem setup_processing_failure_blocks_publish (gen : Gen) (srv : Server)
    (tag locale : String)
    (h : ∃ a ∈ (setupCreatedItems gen srv locale tag).assets,
      srv.processOk a.sys.id = false) :
    ∀ r ∈ traceOf (setupCommand gen tag locale) srv, r.isBulkPublish = false := by
  have h2 : ∃ a ∈ loopAssets gen srv locale tag 0 0 10, srv.processOk a.sys.id = false := by
    rw [setupCreatedItems_eq] at h
    exact h
  obtain ⟨e, s1, heq, l, hl, hall⟩ := setupCommand_run_fail gen srv tag locale h2
  intro r hr
  unfold traceOf at hr
  rw [heq, hl] at hr
  rcases List.mem_append.mp hr with hr1 | hr2
  · exact loopTrace_no_publish gen srv locale tag 10 0 0 r hr1
  · rcases hall r hr2 with ⟨a, rfl⟩
    rfl

/-- Witness for C2: on the concrete server that fails all processing, the
created assets contain a failing one and the setup trace contains no bulk
publish request. -/
theorem setup_processing_failure_blocks_publish_witness :
    (∃ a ∈ (setupCreatedItems demoGen failingServer "en-US" "demo").assets,
        failingServer.processOk a.sys.id = false) ∧
    (∀ r ∈ traceOf (setupCommand demoGen "demo" "en-US") failingServer,
        r.isBulkPublish = false) := by
  have h : ∃ a ∈ (setupCreatedItems demoGen failingServer "en-US" "demo").assets,
      failingServer.processOk a.sys.id = false := by
    rw [setupCreatedItems_eq]
    exact ⟨iterImageAsset demoGen failingServer "en-US" "demo" 0 0,
      by rw [show (10 : Nat) = 9 + 1 from rfl]; simp [loopAssets], rfl⟩
  exact ⟨h, setup_processing_failure_blocks_publish demoGen failingServer "demo" "en-US" h⟩

/-- C7: in every setup run's created items, the Article entry of iteration
`i` holds an `address` link field with exactly the id of the Address entry
of the same iteration and a `mainImage` link field with exactly the id of
the Image asset of the same iteration (referential closure within the
run). -/
theorem article_links_resolve (gen : Gen) (srv : Server) (locale tag : String)
    (i : Nat) (h : i < 10) :
    ∃ article address image,
      (setupCreatedItems gen srv locale tag).entries[2 * i + 1]? = some article ∧
      (setupCreatedItems gen srv locale tag).entries[2 * i]? = some address ∧
      (setupCreatedItems gen srv locale tag).assets[i]? = some image ∧
      getField article.fields "address" locale =
        some (FieldValue.link "Entry" address.sys.id) ∧
      getField article.fields "mainImage" locale =
        some (FieldValue.link "Asset" image.sys.id) := by
  refine ⟨iterArticleEntry gen srv locale tag (0 + i) (0 + 3 * i),
          iterAddressEntry gen srv locale tag (0 + i) (0 + 3 * i),
          iterImageAsset gen srv locale tag (0 + i) (0 + 3 * i), ?_, ?_, ?_, ?_, ?_⟩
  · rw [setupCreatedItems_eq]
    exact loopEntries_getElem_odd gen srv locale tag 10 i 0 0 h
  · rw [setupCreatedItems_eq]
    exact loopEntries_getElem_even gen srv locale tag 10 i 0 0 h
  · rw [setupCreatedItems_eq]
    exact loopAssets_getElem gen srv locale tag 10 i 0 0 h
  · simp [iterArticleEntry, iterAddressEntry, getField_article_address]
  · simp [iterArticleEntry, iterImageAsset, getField_article_mainImage]

/-- Witness for C7: iteration 0 of the concrete run, with the Article's two
link fields resolving to the Address entry and Image asset of that
iteration. -/
theorem article_links_resolve_witness :
    0 < 10 ∧
    (∃ article address image,
      (setupCreatedItems demoGen demoServer "en-US" "demo").entries[2 * 0 + 1]? = some article ∧
      (setupCreatedItems demoGen demoServer "en-US" "demo").entries[2 * 0]? = some address ∧
      (setupCreatedItems demoGen demoServer "en-US" "demo").assets[0]? = some image ∧
      getField article.fields "address" "en-US" =
        some (FieldValue.link "Entry" address.sys.id) ∧
      getField article.fields "mainImage" "en-US" =
        some (FieldValue.link "Asset" image.sys.id)) :=
  ⟨by decide, article_links_resolve demoGen demoServer "en-US" "demo" 0 (by decide)⟩

/-- Witness for C10: the concrete server holds no tagged items, and the
teardown run on it issues exactly the two find queries. -/
theorem teardown_no_matches_noop_witness :
    demoServer.taggedEntries "demo" = [] ∧ demoServer.taggedAssets "demo" = [] ∧
    (resultOf (teardownCommand "demo") demoServer = Except.ok () ∧
     traceOf (teardownCommand "demo") demoServer =
       [Request.entryGetMany "sys.id" "metadata.tags.sys.id[all]" "demo",
        Request.assetGetMany "sys.id" "metadata.tags.sys.id[all]" "demo"] ∧
     ∀ r ∈ traceOf (teardownCommand "demo") demoServer,
       r.isBulkAction = false ∧ r.isDelete = false) :=
  ⟨rfl, rfl, teardown_no_matches_noop "demo" demoServer rfl rfl⟩

end Cfdata
